import Mathlib

/-!
Shallow embedding of the IcePanel MCP server's outbound API request layer
(`src/tools/utils.ts` / `src/icepanel.ts`): retry/backoff loop, error
classification, configuration parsing, filter-parameter serialization and
the character-limit truncation helper, together with proofs of the
specification's testable properties.

JSON values produced by the platform's `JSON.parse` are represented by a
type parameter `J`; the result of a `JSON.parse` call on a body text is
part of each modelled fetch outcome (`none` = the parse throws).
-/

namespace IcePanel

/-- Retry/backoff configuration resolved once at startup:
`API_MAX_RETRIES` and `API_RETRY_BASE_DELAY_MS`. -/
structure Config where
  maxRetries : Nat
  retryBaseDelayMs : Nat
deriving DecidableEq

/-- `MAX_API_RETRY_BASE_DELAY_MS = 5000`, used as the backoff cap. -/
def MAX_API_RETRY_BASE_DELAY_MS : Nat := 5000

/-- `getRetryDelay(attempt)`: `min(API_RETRY_BASE_DELAY_MS * 2^attempt, MAX_API_RETRY_BASE_DELAY_MS)`. -/
def getRetryDelay (cfg : Config) (attempt : Nat) : Nat :=
  min (cfg.retryBaseDelayMs * 2 ^ attempt) MAX_API_RETRY_BASE_DELAY_MS

/-- The `body` field of an `IcePanelApiError`: the JSON-parsed error body,
the raw text when parsing fails, or `undefined` when the raw text is empty. -/
inductive ErrBody (J : Type) where
  | json (j : J)
  | raw (s : String)
  | undef
deriving DecidableEq

/-- Errors that can propagate out of one attempt of `apiRequest`:
`IcePanelApiError` (non-2xx response), an `AbortError` (timeout or
cancellation), a `TypeError` (network failure), the error thrown by
`JSON.parse`/`response.json()` on a malformed body, or a generic `Error`. -/
inductive JsError (J : Type) where
  | apiError (status : Nat) (statusText : String) (body : ErrBody J)
  | abortError
  | typeError
  | jsonParseError
  | generic (msg : String)
deriving DecidableEq

/-- `isRetryableStatus`: `status === 429 || status >= 500`. -/
def isRetryableStatus (status : Nat) : Bool :=
  status == 429 || decide (500 ≤ status)

/-- `isRetryableError(error, externalAbort)`: never retryable when the
caller's signal aborted; otherwise retryable for `IcePanelApiError` with a
retryable status, for `AbortError` (the internal timeout) and for
`TypeError` (network failure). -/
def isRetryableError {J : Type} (e : JsError J) (externalAbort : Bool) : Bool :=
  if externalAbort then false
  else
    match e with
    | .apiError status _ _ => isRetryableStatus status
    | .abortError => true
    | .typeError => true
    | .jsonParseError => false
    | .generic _ => false

/-- `response.ok`: status in the inclusive range 200–299. -/
def okStatus (status : Nat) : Bool :=
  decide (200 ≤ status) && decide (status ≤ 299)

/-- Outcome of one `fetch` call as observed by `apiRequest`: either a
response (status, status text, body text, and the result of `JSON.parse`
on that text — `none` when parsing throws), or a thrown error. -/
inductive FetchResult (J : Type) where
  | response (status : Nat) (statusText : String) (bodyText : String) (bodyJson : Option J)
  | thrown (e : JsError J)
deriving DecidableEq

/-- Error body construction on a non-2xx response:
`try { body = JSON.parse(rawText) } catch { body = rawText || undefined }`. -/
def errBodyOf {J : Type} (bodyText : String) (bodyJson : Option J) : ErrBody J :=
  match bodyJson with
  | some j => .json j
  | none => if bodyText = "" then .undef else .raw bodyText

/-- Final outcome of `apiRequest`: the parsed body, the empty object `{}`
returned on 204, or a rejection. -/
inductive ApiOutcome (J : Type) where
  | success (j : J)
  | emptySuccess
  | failure (e : JsError J)
deriving DecidableEq

/-- Observable behaviour of one `apiRequest` call: how many `fetch`
attempts were issued, the backoff delays slept between attempts (in
order), and the final outcome. -/
structure RunResult (J : Type) where
  attempts : Nat
  delays : List Nat
  outcome : ApiOutcome J
deriving DecidableEq

/-- The retry loop of `apiRequest` from the attempt index `attempt`, with
`rem` loop iterations remaining (`rem = API_MAX_RETRIES + 1 - attempt` at
the top-level call; the `rem = 0` base case is the dead
`throw new Error("Unexpected error in apiRequest")` after the loop).
`extAbort k` tells whether the caller's cancellation signal has fired by
the time attempt `k`'s error is handled (`options.signal?.aborted`);
`fetch k` is the environment's outcome for attempt `k`. -/
def apiAttempts {J : Type} (cfg : Config) (canRetry : Bool) (extAbort : Nat → Bool)
    (fetch : Nat → FetchResult J) : Nat → Nat → RunResult J
  | _, 0 => ⟨0, [], .failure (.generic "Unexpected error in apiRequest")⟩
  | attempt, rem + 1 =>
    match fetch attempt with
    | .response status statusText bodyText bodyJson =>
      if okStatus status then
        if status == 204 then ⟨1, [], .emptySuccess⟩
        else
          match bodyJson with
          | some j => ⟨1, [], .success j⟩
          | none =>
            -- response.json() throws; the catch block consults isRetryableError
            if canRetry && decide (attempt < cfg.maxRetries)
                && isRetryableError (JsError.jsonParseError (J := J)) (extAbort attempt) then
              let r := apiAttempts cfg canRetry extAbort fetch (attempt + 1) rem
              ⟨r.attempts + 1, getRetryDelay cfg attempt :: r.delays, r.outcome⟩
            else ⟨1, [], .failure .jsonParseError⟩
      else
        if canRetry && decide (attempt < cfg.maxRetries) && isRetryableStatus status then
          let r := apiAttempts cfg canRetry extAbort fetch (attempt + 1) rem
          ⟨r.attempts + 1, getRetryDelay cfg attempt :: r.delays, r.outcome⟩
        else ⟨1, [], .failure (.apiError status statusText (errBodyOf bodyText bodyJson))⟩
    | .thrown e =>
      if canRetry && decide (attempt < cfg.maxRetries) && isRetryableError e (extAbort attempt) then
        let r := apiAttempts cfg canRetry extAbort fetch (attempt + 1) rem
        ⟨r.attempts + 1, getRetryDelay cfg attempt :: r.delays, r.outcome⟩
      else ⟨1, [], .failure e⟩

/-- Model of `String.prototype.toUpperCase()` on the ASCII method names
it is applied to: uppercase each character. -/
def jsToUpperCase (s : String) : String :=
  String.mk (s.data.map Char.toUpper)

/-- `const method = (options.method || "GET").toUpperCase();
const canRetry = method === "GET" || method === "HEAD";` -/
def canRetryMethod (method : Option String) : Bool :=
  let m := jsToUpperCase (method.getD "GET")
  m == "GET" || m == "HEAD"

/-- One `apiRequest` call: the retry loop
`for (let attempt = 0; attempt <= API_MAX_RETRIES; attempt++)`. -/
def apiRequest {J : Type} (cfg : Config) (method : Option String) (extAbort : Nat → Bool)
    (fetch : Nat → FetchResult J) : RunResult J :=
  apiAttempts cfg (canRetryMethod method) extAbort fetch 0 (cfg.maxRetries + 1)

/-! ### Configuration parsing (`parseEnvInt` and the numeric tunables) -/

/-- Model of the platform's `Number.parseInt(s, 10)`: skip leading
whitespace, read an optional sign, then a maximal run of decimal digits;
`none` (NaN) when no digit is found. -/
def jsParseInt (s : String) : Option Int :=
  let cs := s.toList.dropWhile (fun c =>
    c == ' ' || c == '\t' || c == '\n' || c == '\r')
  let signAndRest : Int × List Char :=
    match cs with
    | '-' :: rest => (-1, rest)
    | '+' :: rest => (1, rest)
    | _ => (1, cs)
  let digits := signAndRest.2.takeWhile Char.isDigit
  if digits.isEmpty then none
  else some (signAndRest.1 * (digits.foldl (fun acc c => acc * 10 + (c.toNat - 48)) 0 : Nat))

/-- `parseEnvInt(name, fallback, min, max)`: fallback when the variable is
unset or empty (falsy) or parses to NaN, otherwise the parsed value
clamped by `Math.min(Math.max(value, min), max)`. -/
def parseEnvInt (raw : Option String) (fallback lo hi : Int) : Int :=
  match raw with
  | none => fallback
  | some s =>
    if s = "" then fallback
    else
      match jsParseInt s with
      | none => fallback
      | some v => min (max v lo) hi

/-- `DEFAULT_API_TIMEOUT_MS = 30000`. -/
def DEFAULT_API_TIMEOUT_MS : Int := 30000

/-- `DEFAULT_API_MAX_RETRIES = 2`. -/
def DEFAULT_API_MAX_RETRIES : Int := 2

/-- `DEFAULT_API_RETRY_BASE_DELAY_MS = 300`. -/
def DEFAULT_API_RETRY_BASE_DELAY_MS : Int := 300

/-- `MAX_API_RETRIES = 5`. -/
def MAX_API_RETRIES : Int := 5

/-- `API_TIMEOUT_MS = parseEnvInt("ICEPANEL_API_TIMEOUT_MS", 30000, 1000, 120000)`,
as a function of the environment variable's value. -/
def resolveApiTimeoutMs (env : Option String) : Int :=
  parseEnvInt env DEFAULT_API_TIMEOUT_MS 1000 120000

/-- `API_MAX_RETRIES = parseEnvInt("ICEPANEL_API_MAX_RETRIES", 2, 0, MAX_API_RETRIES)`. -/
def resolveApiMaxRetries (env : Option String) : Int :=
  parseEnvInt env DEFAULT_API_MAX_RETRIES 0 MAX_API_RETRIES

/-- `API_RETRY_BASE_DELAY_MS = parseEnvInt("ICEPANEL_API_RETRY_BASE_DELAY_MS", 300, 50, 5000)`. -/
def resolveApiRetryBaseDelayMs (env : Option String) : Int :=
  parseEnvInt env DEFAULT_API_RETRY_BASE_DELAY_MS 50 (MAX_API_RETRY_BASE_DELAY_MS : Int)

/-! ### Base URL validation -/

/-- `DEFAULT_API_BASE_URL`. -/
def DEFAULT_API_BASE_URL : String := "https://api.icepanel.io/v1"

/-- `isTruthyEnv`: the value is exactly one of `"1"`, `"true"`, `"TRUE"`,
`"yes"`, `"YES"`. -/
def isTruthyEnv (value : Option String) : Bool :=
  value == some "1" || value == some "true" || value == some "TRUE"
    || value == some "yes" || value == some "YES"

/-- Result of the platform's `new URL(raw)`: the `protocol` property
(scheme with trailing colon, lowercased) and the normalized
`parsed.toString()`. `apiRequest` never sees a base URL for which the
constructor threw. -/
structure ParsedUrl where
  protocol : String
  normalized : String
deriving DecidableEq

/-- `s.replace(/\/$/, "")`: drop one trailing slash if present. -/
def stripTrailingSlash (s : String) : String :=
  if s.data.getLast? == some '/' then String.mk s.data.dropLast else s

/-- `const raw = process.env.ICEPANEL_API_BASE_URL || DEFAULT_API_BASE_URL`
(an unset or empty — falsy — variable yields the default). -/
def rawBaseUrl (baseUrlEnv : Option String) : String :=
  match baseUrlEnv with
  | none => DEFAULT_API_BASE_URL
  | some s => if s = "" then DEFAULT_API_BASE_URL else s

/-- `getValidatedApiBaseUrl()`, parameterized by the platform URL parser
(`urlParse raw = none` means `new URL(raw)` throws) and the two
environment variables. `Except.error` models the thrown `Error`; since
`API_BASE_URL` is computed at module load, an error aborts startup before
any network request can be issued. -/
def getValidatedApiBaseUrl (urlParse : String → Option ParsedUrl)
    (baseUrlEnv allowInsecureEnv : Option String) : Except String String :=
  match urlParse (rawBaseUrl baseUrlEnv) with
  | none => .error "ICEPANEL_API_BASE_URL must be a valid URL"
  | some parsed =>
    if parsed.protocol == "http:" && !isTruthyEnv allowInsecureEnv then
      .error "ICEPANEL_API_BASE_URL must use https unless ICEPANEL_API_ALLOW_INSECURE is true"
    else if parsed.protocol != "https:" && parsed.protocol != "http:" then
      .error "ICEPANEL_API_BASE_URL must use http or https"
    else
      .ok (stripTrailingSlash parsed.normalized)

/-! ### Filter query-parameter serialization (`buildFilterParams`) -/

/-- A value of a filter field as it can appear in the repository's filter
objects: `undefined`, `null`, a primitive (already stringified, as
`String(value)` would render it), an array of primitives (each
stringified), or the nested labels record. -/
inductive FilterValue where
  | undef
  | null
  | prim (s : String)
  | arr (xs : List String)
  | labelsObj (m : List (String × String))
deriving DecidableEq

/-- The parameters appended for one `[key, value]` entry of the filter
object, following the branch order of `buildFilterParams`:
`key === "labels" && typeof value === "object" && value !== null` first
(note an array under the key `"labels"` takes this branch, its
`Object.entries` being index/element pairs), then `Array.isArray`, then
`value === null`, then the simple case `String(value)` (a non-`labels`
object stringifies to `"[object Object]"`). -/
def buildFilterEntry (key : String) (v : FilterValue) : List (String × String) :=
  match v with
  | .undef => []
  | .labelsObj m =>
    if key = "labels" then
      m.map (fun p => ("filter[labels][" ++ p.1 ++ "]", p.2))
    else
      [("filter[" ++ key ++ "]", "[object Object]")]
  | .arr xs =>
    if key = "labels" then
      xs.enum.map (fun p => ("filter[labels][" ++ toString p.1 ++ "]", p.2))
    else
      xs.map (fun x => ("filter[" ++ key ++ "][]", x))
  | .null => [("filter[" ++ key ++ "]", "null")]
  | .prim s => [("filter[" ++ key ++ "]", s)]

/-- `buildFilterParams(filter)`: the `URLSearchParams` accumulated over
`Object.entries(filter)`, modelled as the ordered list of appended
key/value pairs. -/
def buildFilterParams (filter : List (String × FilterValue)) : List (String × String) :=
  (filter.map (fun p => buildFilterEntry p.1 p.2)).flatten

/-- `true` when the string contains no bracket character. -/
def bracketFree (s : String) : Bool :=
  s.toList.all (fun c => c != '[' && c != ']')

/-- The shape of one serialized parameter key under the remote API's
bracket convention. -/
inductive ParamKey where
  | plain (k : String)
  | arrElem (k : String)
  | label (k : String)
  | other
deriving DecidableEq

/-- Modelled from the spec: the remote API's reading of one bracketed
query-parameter key — `filter[k]` a scalar field, `filter[k][]` an array
element, `filter[labels][k]` a labels entry (the wire format
`filter[key][]=value`, `filter[labels][k]=v` of §6). -/
def decodeKeyChars (cs : List Char) : ParamKey :=
  match cs with
  | 'f' :: 'i' :: 'l' :: 't' :: 'e' :: 'r' :: '[' :: rest =>
    let seg := rest.takeWhile (fun c => c != ']')
    let rem := rest.dropWhile (fun c => c != ']')
    if rem = [']'] then .plain (String.mk seg)
    else if rem = [']', '[', ']'] then .arrElem (String.mk seg)
    else if String.mk seg = "labels" then
      match rem with
      | ']' :: '[' :: rest2 =>
        let inner := rest2.takeWhile (fun c => c != ']')
        let rem2 := rest2.dropWhile (fun c => c != ']')
        if rem2 = [']'] then .label (String.mk inner) else .other
      | _ => .other
    else .other
  | _ => .other

/-- Modelled from the spec: append one array element to the filter field
`k` being reconstructed, creating the field if absent. -/
def addArrElem : List (String × FilterValue) → String → String → List (String × FilterValue)
  | [], k, v => [(k, .arr [v])]
  | (k', fv) :: rest, k, v =>
    if k' = k then
      match fv with
      | .arr xs => (k', .arr (xs ++ [v])) :: rest
      | fv' => (k', fv') :: addArrElem rest k v
    else (k', fv) :: addArrElem rest k v

/-- Modelled from the spec: record one labels entry in the reconstructed
filter, creating the `labels` field if absent. -/
def addLabel : List (String × FilterValue) → String → String → List (String × FilterValue)
  | [], k, v => [("labels", .labelsObj [(k, v)])]
  | (k', fv) :: rest, k, v =>
    if k' = "labels" then
      match fv with
      | .labelsObj m => (k', .labelsObj (m ++ [(k, v)])) :: rest
      | fv' => (k', fv') :: addLabel rest k v
    else (k', fv) :: addLabel rest k v

/-- Modelled from the spec: fold one serialized parameter into the
reconstructed filter (`filter[k]=null` denotes the null field). -/
def insertParam (acc : List (String × FilterValue)) (key value : String) :
    List (String × FilterValue) :=
  match decodeKeyChars key.toList with
  | .plain k => acc ++ [(k, if value = "null" then .null else .prim value)]
  | .arrElem k => addArrElem acc k value
  | .label k => addLabel acc k value
  | .other => acc

/-- Modelled from the spec: reconstruct the filter a serialized parameter
list denotes under the remote API's bracket convention. -/
def decodeFilterParams (params : List (String × String)) : List (String × FilterValue) :=
  params.foldl (fun acc p => insertParam acc p.1 p.2) []

/-! ### Output formatting and the character limit (`formatOutput`, `applyCharacterLimit`) -/

/-- The `response_format` parameter: `"markdown"` or `"json"`. -/
inductive ResponseFormat where
  | markdown
  | json
deriving DecidableEq

/-- `formatOutput(responseFormat, markdown, structuredContent)`;
`structuredJson` stands for `JSON.stringify(structuredContent, null, 2)`. -/
def formatOutput (responseFormat : ResponseFormat) (markdown structuredJson : String) : String :=
  match responseFormat with
  | .json => structuredJson
  | .markdown => markdown

/-- The fields of a paged tool output that `applyCharacterLimit` reads or
writes; `α` is the item type. -/
structure LimState (α : Type) where
  items : List α
  count : Option Nat
  has_more : Option Bool
  next_offset : Option Nat
  offset : Option Nat
  truncated : Option Bool
  truncation_message : Option String
deriving DecidableEq

/-- One iteration of the truncation loop body: halve the items
(`slice(0, Math.ceil(length / 2))`) and update the bookkeeping fields. -/
def truncateStep {α : Type} (st : LimState α) : LimState α :=
  let items2 := st.items.take ((st.items.length + 1) / 2)
  ⟨items2, some items2.length, some true, some (st.offset.getD 0 + items2.length),
    st.offset, some true,
    some "Response truncated to fit size limits. Use limit/offset or filters to page through results."⟩

/-- The `while (rendered.length > CHARACTER_LIMIT && output.items.length > 1)`
loop of `applyCharacterLimit`; `render st` stands for
`formatOutput(responseFormat, markdownRenderer(st), st)`. -/
def applyCharLoop {α : Type} (charLimit : Nat) (render : LimState α → String)
    (st : LimState α) : LimState α :=
  if _h : charLimit < (render st).length ∧ 1 < st.items.length then
    applyCharLoop charLimit render (truncateStep st)
  else st
termination_by st.items.length
decreasing_by
  simp only [truncateStep, List.length_take]
  omega

/-- An output handed to `applyCharacterLimit`: either its `items` field is
not an array (returned unchanged), or it is, with surrounding fields. -/
inductive LimOutput (α : Type) where
  | noItems
  | withItems (st : LimState α)
deriving DecidableEq

/-- `applyCharacterLimit(output, responseFormat, markdownRenderer)`,
parameterized by the markdown renderer and by `stringify` standing for
`JSON.stringify(·, null, 2)`; `CHARACTER_LIMIT` is imported from
`constants.js` (not part of this snapshot) and is passed as `charLimit`. -/
def applyCharacterLimit {α : Type} (charLimit : Nat) (responseFormat : ResponseFormat)
    (markdownRenderer stringify : LimState α → String) :
    LimOutput α → LimOutput α
  | .noItems => .noItems
  | .withItems st =>
    .withItems (applyCharLoop charLimit
      (fun s => formatOutput responseFormat (markdownRenderer s) (stringify s)) st)

/-! ## Helper lemmas about the retry loop -/

/-- Shifting the delay schedule by one attempt. -/
theorem delays_range_shift (cfg : Config) (a n : Nat) :
    (List.range (n + 1)).map (fun k => getRetryDelay cfg (a + k)) =
      getRetryDelay cfg a :: (List.range n).map (fun k => getRetryDelay cfg (a + 1 + k)) := by
  rw [List.range_succ_eq_map, List.map_cons, List.map_map]
  have hfun : ((fun k => getRetryDelay cfg (a + k)) ∘ Nat.succ) =
      fun k => getRetryDelay cfg (a + 1 + k) :=
    funext fun k => congrArg (getRetryDelay cfg) (by omega)
  rw [hfun]
  simp

/-- Each backoff delay is at most the next one. -/
theorem getRetryDelay_le_succ (cfg : Config) (k : Nat) :
    getRetryDelay cfg k ≤ getRetryDelay cfg (k + 1) := by
  unfold getRetryDelay
  exact min_le_min
    (Nat.mul_le_mul (Nat.le_refl _) (Nat.pow_le_pow_right (by norm_num) (Nat.le_succ k)))
    (Nat.le_refl _)

/-- The delay schedule of any run is nondecreasing. -/
theorem delays_chain_le (cfg : Config) (m : Nat) :
    List.Chain' (· ≤ ·) ((List.range m).map (getRetryDelay cfg)) := by
  rw [List.chain'_map]
  cases m with
  | zero => simp
  | succ m' =>
    rw [List.chain'_range_succ]
    intro i _
    exact getRetryDelay_le_succ cfg i

/-- Retryable 503 failures on `n` consecutive attempts followed by a
parseable 2xx (non-204) response: the loop issues `n + 1` attempts,
sleeping `getRetryDelay` between them, and returns the parsed body. -/
theorem apiAttempts_fail503_then_ok {J : Type} (cfg : Config) (extAbort : Nat → Bool)
    (fetch : Nat → FetchResult J) (status : Nat) (j : J) (hok : okStatus status = true)
    (h204 : status ≠ 204) :
    ∀ n a rem : Nat, a + n ≤ cfg.maxRetries → n < rem →
      (∀ k, a ≤ k → k < a + n → ∃ stx bt bj, fetch k = FetchResult.response 503 stx bt bj) →
      (∃ stx bt, fetch (a + n) = FetchResult.response status stx bt (some j)) →
      apiAttempts cfg true extAbort fetch a rem =
        ⟨n + 1, (List.range n).map (fun k => getRetryDelay cfg (a + k)), ApiOutcome.success j⟩ := by
  intro n
  induction n with
  | zero =>
    intro a rem _ hrem _ hsucc
    obtain ⟨stx, bt, hf⟩ := hsucc
    obtain ⟨rem', rfl⟩ : ∃ r, rem = r + 1 := ⟨rem - 1, by omega⟩
    rw [Nat.add_zero] at hf
    have h204b : (status == 204) = false := by simp [h204]
    simp [apiAttempts, hf, hok, h204b]
  | succ n ih =>
    intro a rem hle hrem hfail hsucc
    obtain ⟨rem', rfl⟩ : ∃ r, rem = r + 1 := ⟨rem - 1, by omega⟩
    obtain ⟨stx, bt, bj, hf⟩ := hfail a (Nat.le_refl a) (by omega)
    have ha : a < cfg.maxRetries := by omega
    have hrec := ih (a + 1) rem' (by omega) (by omega)
      (fun k hk1 hk2 => hfail k (by omega) (by omega))
      (by
        obtain ⟨stx2, bt2, hs⟩ := hsucc
        exact ⟨stx2, bt2, by rw [show a + 1 + n = a + (n + 1) by omega] ; exact hs⟩)
    simp [apiAttempts, hf, ha, hrec, okStatus, isRetryableStatus, delays_range_shift]

/-- Every attempt rejecting with the same 500 response whose body is raw
text: the loop exhausts its budget and throws the classified error. -/
theorem apiAttempts_all_500_raw {J : Type} (cfg : Config) (extAbort : Nat → Bool)
    (fetch : Nat → FetchResult J) (stx bt : String) (hbt : bt ≠ "")
    (hall : ∀ k, fetch k = FetchResult.response 500 stx bt (none : Option J)) :
    ∀ rem a : Nat, a + rem = cfg.maxRetries + 1 → 1 ≤ rem →
      apiAttempts cfg true extAbort fetch a rem =
        ⟨rem, (List.range (rem - 1)).map (fun k => getRetryDelay cfg (a + k)),
          ApiOutcome.failure (.apiError 500 stx (.raw bt))⟩ := by
  intro rem
  induction rem with
  | zero => intro a _ h1; omega
  | succ r ih =>
    intro a hsum _
    cases Nat.eq_zero_or_pos r with
    | inl hr0 =>
      subst hr0
      have ha : ¬ a < cfg.maxRetries := by omega
      simp [apiAttempts, hall a, okStatus, isRetryableStatus, ha, errBodyOf, hbt]
    | inr hrpos =>
      have ha : a < cfg.maxRetries := by omega
      have hrec := ih (a + 1) (by omega) hrpos
      have hshift := delays_range_shift cfg a (r - 1)
      rw [show r - 1 + 1 = r from by omega] at hshift
      simp [apiAttempts, hall a, okStatus, isRetryableStatus, ha, hrec, hshift]

/-! ## Claim theorems: the retry/backoff loop -/

/-- C1 (amended): for every idempotent-method request failing with a 503
status on each of the first N−1 attempts (N at most the configured
maximum retries plus one) and succeeding on attempt N, `apiRequest`
returns the successful parsed result, issues exactly N network attempts,
and the inter-attempt delay of attempt k is `min(baseDelay * 2^k, 5000)`
for k = 0..N−2 — a nondecreasing schedule (strict increase fails once the
5000 ms cap is reached). -/
theorem c1_retry_backoff_schedule {J : Type} (cfg : Config) (method : Option String)
    (extAbort : Nat → Bool) (fetch : Nat → FetchResult J) (N status : Nat) (j : J)
    (hm : canRetryMethod method = true) (hN : 1 ≤ N) (hNle : N ≤ cfg.maxRetries + 1)
    (hfail : ∀ k, k < N - 1 → ∃ stx bt bj, fetch k = FetchResult.response 503 stx bt bj)
    (hsucc : ∃ stx bt, fetch (N - 1) = FetchResult.response status stx bt (some j))
    (hok : okStatus status = true) (h204 : status ≠ 204) :
    apiRequest cfg method extAbort fetch =
      ⟨N, (List.range (N - 1)).map (getRetryDelay cfg), ApiOutcome.success j⟩
    ∧ List.Chain' (· ≤ ·) ((List.range (N - 1)).map (getRetryDelay cfg))
    ∧ ∀ k, getRetryDelay cfg k = min (cfg.retryBaseDelayMs * 2 ^ k) 5000 := by
  refine ⟨?_, delays_chain_le cfg (N - 1), fun k => rfl⟩
  have h := apiAttempts_fail503_then_ok cfg extAbort fetch status j hok h204
    (N - 1) 0 (cfg.maxRetries + 1) (by omega) (by omega)
    (fun k hk1 hk2 => hfail k (by omega))
    (by simpa using hsucc)
  unfold apiRequest
  rw [hm, h]
  have : N - 1 + 1 = N := by omega
  simp [this]

/-- C2: for every request whose (uppercased) method is POST, PATCH or
DELETE that fails with a 503 status, `apiRequest` makes exactly one
network attempt and propagates the `IcePanelApiError`, performing no
retry regardless of the configured maximum retry count. -/
theorem c2_mutating_method_no_retry {J : Type} (cfg : Config) (method : Option String)
    (extAbort : Nat → Bool) (fetch : Nat → FetchResult J) (stx bt : String) (bj : Option J)
    (hm : jsToUpperCase (method.getD "GET") = "POST"
      ∨ jsToUpperCase (method.getD "GET") = "PATCH"
      ∨ jsToUpperCase (method.getD "GET") = "DELETE")
    (hf : fetch 0 = FetchResult.response 503 stx bt bj) :
    apiRequest cfg method extAbort fetch =
      ⟨1, [], ApiOutcome.failure (.apiError 503 stx (errBodyOf bt bj))⟩ := by
  have hcr : canRetryMethod method = false := by
    unfold canRetryMethod
    rcases hm with h | h | h <;> simp [h]
  unfold apiRequest
  simp [apiAttempts, hf, hcr, okStatus]

/-- C3: when the caller-supplied cancellation signal has fired by the time
an attempt's `fetch` rejects (with the `AbortError` the abort produces),
`apiRequest` rejects with that cancellation error and performs no further
attempt, for every method and any remaining retry budget; in particular a
signal aborted at the first attempt yields exactly one attempt. -/
theorem c3_external_abort_no_retry {J : Type} (cfg : Config) (method : Option String)
    (extAbort : Nat → Bool) (fetch : Nat → FetchResult J) (a rem : Nat)
    (hab : extAbort a = true) (hf : fetch a = FetchResult.thrown .abortError) :
    apiAttempts cfg (canRetryMethod method) extAbort fetch a (rem + 1) =
      ⟨1, [], ApiOutcome.failure .abortError⟩
    ∧ (a = 0 → apiRequest cfg method extAbort fetch =
        ⟨1, [], ApiOutcome.failure .abortError⟩) := by
  constructor
  · simp [apiAttempts, hf, isRetryableError, hab]
  · intro ha0
    subst ha0
    unfold apiRequest
    simp [apiAttempts, hf, isRetryableError, hab]

/-- C4: a non-2xx response is classified retryable exactly when its status
is 429 or at least 500; every other non-2xx status is terminal —
`apiRequest` makes one attempt for any method and propagates an error
retaining the status, status text and body. -/
theorem c4_terminal_status_classification {J : Type} (status : Nat) :
    (isRetryableStatus status = true ↔ status = 429 ∨ 500 ≤ status)
    ∧ (∀ (cfg : Config) (method : Option String) (extAbort : Nat → Bool)
        (fetch : Nat → FetchResult J) (stx bt : String) (bj : Option J) (a rem : Nat),
        okStatus status = false → status ≠ 429 → status < 500 →
        fetch a = FetchResult.response status stx bt bj →
        apiAttempts cfg (canRetryMethod method) extAbort fetch a (rem + 1) =
          ⟨1, [], ApiOutcome.failure (.apiError status stx (errBodyOf bt bj))⟩
        ∧ (a = 0 → apiRequest cfg method extAbort fetch =
            ⟨1, [], ApiOutcome.failure (.apiError status stx (errBodyOf bt bj))⟩)) := by
  constructor
  · simp [isRetryableStatus]
  · intro cfg method extAbort fetch stx bt bj a rem hok h429 h500 hf
    have hr : isRetryableStatus status = false := by
      simp [isRetryableStatus]
      omega
    constructor
    · simp [apiAttempts, hf, hok, hr]
    · intro ha0
      subst ha0
      unfold apiRequest
      simp [apiAttempts, hf, hok, hr]

/-- C8: a 204 response makes `apiRequest` return the empty result object
after one attempt, independently of the response body and of whether that
body would parse as JSON (no parse is attempted). -/
theorem c8_204_empty_result {J : Type} (cfg : Config) (method : Option String)
    (extAbort : Nat → Bool) (fetch : Nat → FetchResult J) (stx bt : String) (bj : Option J)
    (a rem : Nat) (hf : fetch a = FetchResult.response 204 stx bt bj) :
    apiAttempts cfg (canRetryMethod method) extAbort fetch a (rem + 1) =
      ⟨1, [], ApiOutcome.emptySuccess⟩
    ∧ (a = 0 → apiRequest cfg method extAbort fetch = ⟨1, [], ApiOutcome.emptySuccess⟩) := by
  constructor
  · simp [apiAttempts, hf, okStatus]
  · intro ha0
    subst ha0
    unfold apiRequest
    simp [apiAttempts, hf, okStatus]

/-- C9: when every attempt yields a 500 response whose nonempty body is
not parseable as JSON, `apiRequest` rejects with the classified
`IcePanelApiError` carrying the raw body text (never an unclassified
error from error-body parsing), after the full budget for idempotent
methods and one attempt otherwise. -/
theorem c9_500_raw_body_classified {J : Type} (cfg : Config) (method : Option String)
    (extAbort : Nat → Bool) (fetch : Nat → FetchResult J) (stx bt : String) (hbt : bt ≠ "")
    (hall : ∀ k, fetch k = FetchResult.response 500 stx bt (none : Option J)) :
    apiRequest cfg method extAbort fetch =
      ⟨if canRetryMethod method then cfg.maxRetries + 1 else 1,
        if canRetryMethod method then (List.range cfg.maxRetries).map (getRetryDelay cfg) else [],
        ApiOutcome.failure (.apiError 500 stx (.raw bt))⟩ := by
  unfold apiRequest
  cases hcr : canRetryMethod method with
  | true =>
    have h := apiAttempts_all_500_raw cfg extAbort fetch stx bt hbt hall
      (cfg.maxRetries + 1) 0 (by omega) (by omega)
    rw [h]
    simp
  | false =>
    simp [apiAttempts, hall 0, okStatus, errBodyOf, hbt]

/-- C1 counterexample: with the retry base delay configured to its clamp
maximum 5000 ms (reachable via `ICEPANEL_API_RETRY_BASE_DELAY_MS=5000`)
and two retries, a GET failing with 503 on attempts one and two and
succeeding on attempt three satisfies the claim's hypotheses, yet the
inter-attempt delays are [5000, 5000]: equal to `min(base*2^k, 5000)` but
not strictly increasing. -/
theorem c1_cap_counterexample :
    resolveApiRetryBaseDelayMs (some "5000") = 5000
    ∧ apiRequest (J := Unit) ⟨2, 5000⟩ (some "GET") (fun _ => false)
        (fun k => if k < 2 then FetchResult.response 503 "SU" "" none
          else FetchResult.response 200 "OK" "ok" (some ())) =
      ⟨3, [5000, 5000], ApiOutcome.success ()⟩
    ∧ ¬ List.Chain' (· < ·) [5000, 5000] :=
  ⟨by decide, by decide, by simp [List.chain'_cons]⟩

/-- Witness for C1 at maxRetries 2, base delay 300 ms, method GET, 503 on
attempts one and two, success on attempt three: delays [300, 600]. -/
theorem c1_retry_backoff_witness :
    apiRequest (J := Unit) ⟨2, 300⟩ (some "GET") (fun _ => false)
        (fun k => if k < 2 then FetchResult.response 503 "SU" "" none
          else FetchResult.response 200 "OK" "ok" (some ())) =
      ⟨3, [300, 600], ApiOutcome.success ()⟩
    ∧ List.Chain' (· ≤ ·) [300, 600] := by
  have h := c1_retry_backoff_schedule (J := Unit) ⟨2, 300⟩ (some "GET") (fun _ => false)
    (fun k => if k < 2 then FetchResult.response 503 "SU" "" none
      else FetchResult.response 200 "OK" "ok" (some ()))
    3 200 () (by decide) (by omega) (by decide)
    (fun k hk => ⟨"SU", "", none, if_pos hk⟩)
    ⟨"OK", "ok", rfl⟩ (by decide) (by decide)
  exact ⟨h.1, h.2.1⟩

/-- Witness for C2: a lowercase `post` method (uppercased by the client)
with a 503 response makes exactly one attempt and throws. -/
theorem c2_mutating_method_witness :
    apiRequest (J := Unit) ⟨5, 300⟩ (some "post") (fun _ => false)
        (fun _ => FetchResult.response 503 "Service Unavailable" "busy" none) =
      ⟨1, [], ApiOutcome.failure (.apiError 503 "Service Unavailable" (.raw "busy"))⟩ :=
  c2_mutating_method_no_retry (J := Unit) ⟨5, 300⟩ (some "post") (fun _ => false)
    (fun _ => FetchResult.response 503 "Service Unavailable" "busy" none)
    "Service Unavailable" "busy" none (Or.inl (by decide)) rfl

/-- Witness for C3: a GET whose signal is already aborted makes exactly
one attempt with five retries configured. -/
theorem c3_external_abort_witness :
    apiAttempts (J := Unit) ⟨5, 300⟩ (canRetryMethod (some "GET")) (fun _ => true)
        (fun _ => FetchResult.thrown .abortError) 0 (3 + 1) =
      ⟨1, [], ApiOutcome.failure .abortError⟩
    ∧ apiRequest (J := Unit) ⟨5, 300⟩ (some "GET") (fun _ => true)
        (fun _ => FetchResult.thrown .abortError) =
      ⟨1, [], ApiOutcome.failure .abortError⟩ := by
  have h := c3_external_abort_no_retry (J := Unit) ⟨5, 300⟩ (some "GET") (fun _ => true)
    (fun _ => FetchResult.thrown .abortError) 0 3 rfl rfl
  exact ⟨h.1, h.2 rfl⟩

/-- Witness for C4: 404 is not retryable, and a GET receiving 404 with
retries configured makes one attempt and propagates status and body. -/
theorem c4_terminal_status_witness :
    (isRetryableStatus 404 = true ↔ 404 = 429 ∨ 500 ≤ 404)
    ∧ apiRequest (J := Unit) ⟨5, 300⟩ (some "GET") (fun _ => false)
        (fun _ => FetchResult.response 404 "Not Found" "nf" none) =
      ⟨1, [], ApiOutcome.failure (.apiError 404 "Not Found" (.raw "nf"))⟩ :=
  ⟨(c4_terminal_status_classification (J := Unit) 404).1,
    ((c4_terminal_status_classification (J := Unit) 404).2 ⟨5, 300⟩ (some "GET")
      (fun _ => false) (fun _ => FetchResult.response 404 "Not Found" "nf" none)
      "Not Found" "nf" none 0 5 (by decide) (by decide) (by decide) rfl).2 rfl⟩

/-- Witness for C8: a 204 with an empty (unparseable) body returns the
empty result after one attempt. -/
theorem c8_204_witness :
    apiRequest (J := Unit) ⟨5, 300⟩ (some "DELETE") (fun _ => false)
        (fun _ => FetchResult.response 204 "No Content" "" none) =
      ⟨1, [], ApiOutcome.emptySuccess⟩ :=
  (c8_204_empty_result (J := Unit) ⟨5, 300⟩ (some "DELETE") (fun _ => false)
    (fun _ => FetchResult.response 204 "No Content" "" none) "No Content" "" none 0 5 rfl).2
    rfl

/-- Witness for C9: a GET with two retries receiving 500 with body
`"oops"` (not JSON) on every attempt rejects with the classified error
carrying the raw text. -/
theorem c9_500_raw_body_witness :
    apiRequest (J := Unit) ⟨2, 300⟩ (some "GET") (fun _ => false)
        (fun _ => FetchResult.response 500 "Internal Server Error" "oops" none) =
      ⟨3, [300, 600], ApiOutcome.failure (.apiError 500 "Internal Server Error" (.raw "oops"))⟩ :=
  c9_500_raw_body_classified (J := Unit) ⟨2, 300⟩ (some "GET") (fun _ => false)
    (fun _ => FetchResult.response 500 "Internal Server Error" "oops" none)
    "Internal Server Error" "oops" (by decide) (fun _ => rfl)

/-! ## Claim theorems: configuration -/

/-- C5 counterexample: `ICEPANEL_API_TIMEOUT_MS=50` is numeric but below
the safe range [1000, 120000]; the resolved timeout is the clamped range
bound 1000 ms, not the documented default 30000 ms. -/
theorem c5_out_of_range_counterexample :
    resolveApiTimeoutMs (some "50") = 1000 ∧ (1000 : Int) ≠ 30000 :=
  ⟨by decide, by decide⟩

/-- C5 (amended): each numeric tunable always resolves to a value inside
its documented safe range without failing startup; an unset or non-numeric
environment value resolves to the documented default (30000 ms timeout,
2 retries, 300 ms base delay), and a numeric out-of-range value is clamped
to the nearest range bound rather than reset to the default. -/
theorem c5_env_tunables (env : Option String) :
    (1000 ≤ resolveApiTimeoutMs env ∧ resolveApiTimeoutMs env ≤ 120000)
    ∧ (0 ≤ resolveApiMaxRetries env ∧ resolveApiMaxRetries env ≤ 5)
    ∧ (50 ≤ resolveApiRetryBaseDelayMs env ∧ resolveApiRetryBaseDelayMs env ≤ 5000)
    ∧ (∀ s, env = some s → jsParseInt s = none →
        resolveApiTimeoutMs env = 30000 ∧ resolveApiMaxRetries env = 2
          ∧ resolveApiRetryBaseDelayMs env = 300)
    ∧ (env = none →
        resolveApiTimeoutMs env = 30000 ∧ resolveApiMaxRetries env = 2
          ∧ resolveApiRetryBaseDelayMs env = 300)
    ∧ (∀ s v, env = some s → s ≠ "" → jsParseInt s = some v →
        resolveApiTimeoutMs env = min (max v 1000) 120000
          ∧ resolveApiMaxRetries env = min (max v 0) 5
          ∧ resolveApiRetryBaseDelayMs env = min (max v 50) 5000) := by
  unfold resolveApiTimeoutMs resolveApiMaxRetries resolveApiRetryBaseDelayMs
  unfold DEFAULT_API_TIMEOUT_MS DEFAULT_API_MAX_RETRIES DEFAULT_API_RETRY_BASE_DELAY_MS
  unfold MAX_API_RETRIES MAX_API_RETRY_BASE_DELAY_MS
  cases env with
  | none => simp [parseEnvInt]
  | some s =>
    by_cases hs : s = ""
    · subst hs
      simp [parseEnvInt]
      exact fun s2 v h1 h2 _ => absurd h1.symm h2
    · cases hp : jsParseInt s with
      | none =>
        simp [parseEnvInt, hs, hp]
        intro s1 v h1 _ h3
        subst h1
        rw [hp] at h3
        exact absurd h3 (by simp)
      | some v =>
        simp only [parseEnvInt, hs, if_neg hs, hp]
        refine ⟨by omega, by omega, by omega, ?_, by simp, ?_⟩
        · intro s2 hs2 hnone
          injection hs2 with hs2
          subst hs2
          rw [hp] at hnone
          exact absurd hnone (by simp)
        · intro s2 v2 hs2 _ hsome
          injection hs2 with hs2
          subst hs2
          rw [hp] at hsome
          injection hsome with hv
          subst hv
          exact ⟨rfl, rfl, rfl⟩

/-- Witness for C5: `"abc"` is non-numeric, so all three tunables fall
back to their defaults; `"999999"` is numeric but above the timeout range,
so the timeout clamps to 120000 ms. -/
theorem c5_env_tunables_witness :
    resolveApiTimeoutMs (some "abc") = 30000
    ∧ resolveApiMaxRetries (some "abc") = 2
    ∧ resolveApiRetryBaseDelayMs (some "abc") = 300
    ∧ resolveApiTimeoutMs (some "999999") = 120000 := by
  have h1 := (c5_env_tunables (some "abc")).2.2.2.1 "abc" rfl (by decide)
  have h2 := (c5_env_tunables (some "999999")).2.2.2.2.2 "999999" 999999 rfl
    (by decide) (by decide)
  refine ⟨h1.1, h1.2.1, h1.2.2, ?_⟩
  rw [h2.1]
  decide

/-- C6: with an http base URL and no insecure override, validation throws
the configuration error (at module load, before any request); an https
base URL is accepted (normalized, trailing slash stripped); a
non-http(s) scheme or an unparsable URL is likewise rejected with a
configuration error. -/
theorem c6_base_url_validation (urlParse : String → Option ParsedUrl)
    (baseUrlEnv allowInsecureEnv : Option String) :
    (urlParse (rawBaseUrl baseUrlEnv) = none →
      ∃ msg, getValidatedApiBaseUrl urlParse baseUrlEnv allowInsecureEnv = .error msg)
    ∧ (∀ p, urlParse (rawBaseUrl baseUrlEnv) = some p → p.protocol = "http:" →
        isTruthyEnv allowInsecureEnv = false →
        getValidatedApiBaseUrl urlParse baseUrlEnv allowInsecureEnv =
          .error "ICEPANEL_API_BASE_URL must use https unless ICEPANEL_API_ALLOW_INSECURE is true")
    ∧ (∀ p, urlParse (rawBaseUrl baseUrlEnv) = some p → p.protocol = "https:" →
        getValidatedApiBaseUrl urlParse baseUrlEnv allowInsecureEnv =
          .ok (stripTrailingSlash p.normalized))
    ∧ (∀ p, urlParse (rawBaseUrl baseUrlEnv) = some p →
        p.protocol ≠ "http:" → p.protocol ≠ "https:" →
        ∃ msg, getValidatedApiBaseUrl urlParse baseUrlEnv allowInsecureEnv = .error msg) := by
  refine ⟨?_, ?_, ?_, ?_⟩
  · intro hp
    exact ⟨"ICEPANEL_API_BASE_URL must be a valid URL",
      by simp [getValidatedApiBaseUrl, hp]⟩
  · intro p hp hproto hflag
    simp [getValidatedApiBaseUrl, hp, hproto, hflag]
  · intro p hp hproto
    simp [getValidatedApiBaseUrl, hp, hproto]
  · intro p hp h1 h2
    refine ⟨"ICEPANEL_API_BASE_URL must use http or https", ?_⟩
    simp [getValidatedApiBaseUrl, hp, h1, h2]

/-- Witness for C6: `http://example.com` without the override is rejected;
`https://example.com` is accepted; an `ftp:` scheme and an unparsable
value are rejected. -/
theorem c6_base_url_validation_witness :
    getValidatedApiBaseUrl (fun _ => some ⟨"http:", "http://example.com/"⟩)
        (some "http://example.com") none =
      .error "ICEPANEL_API_BASE_URL must use https unless ICEPANEL_API_ALLOW_INSECURE is true"
    ∧ getValidatedApiBaseUrl (fun _ => some ⟨"https:", "https://example.com/"⟩)
        (some "https://example.com") none = .ok "https://example.com"
    ∧ (∃ msg, getValidatedApiBaseUrl (fun _ => some ⟨"ftp:", "ftp://example.com/"⟩)
        (some "ftp://example.com") none = .error msg)
    ∧ (∃ msg, getValidatedApiBaseUrl (fun _ => none) (some "not a url") none = .error msg) := by
  refine ⟨?_, ?_, ?_, ?_⟩
  · exact (c6_base_url_validation (fun _ => some ⟨"http:", "http://example.com/"⟩)
      (some "http://example.com") none).2.1 ⟨"http:", "http://example.com/"⟩ rfl rfl rfl
  · exact (c6_base_url_validation (fun _ => some ⟨"https:", "https://example.com/"⟩)
      (some "https://example.com") none).2.2.1 ⟨"https:", "https://example.com/"⟩ rfl rfl
  · exact (c6_base_url_validation (fun _ => some ⟨"ftp:", "ftp://example.com/"⟩)
      (some "ftp://example.com") none).2.2.2 ⟨"ftp:", "ftp://example.com/"⟩ rfl
      (by decide) (by decide)
  · exact (c6_base_url_validation (fun _ => none) (some "not a url") none).1 rfl

/-! ## Claim theorems: the character-limit truncation loop -/

/-- One-step unfolding of the truncation loop. -/
theorem applyCharLoop_unfold {α : Type} (charLimit : Nat) (render : LimState α → String)
    (st : LimState α) :
    applyCharLoop charLimit render st =
      if charLimit < (render st).length ∧ 1 < st.items.length then
        applyCharLoop charLimit render (truncateStep st)
      else st := by
  rw [applyCharLoop.eq_def, dite_eq_ite]

/-- Invariants of the truncation loop: a non-empty items list stays
non-empty, and whenever at least one truncation iteration ran, the
bookkeeping fields describe the remaining items. -/
theorem applyCharLoop_invariants {α : Type} (charLimit : Nat) (render : LimState α → String) :
    ∀ (n : Nat) (st : LimState α), st.items.length ≤ n →
      (st.items ≠ [] → (applyCharLoop charLimit render st).items ≠ [])
      ∧ (applyCharLoop charLimit render st ≠ st →
          (applyCharLoop charLimit render st).count =
              some (applyCharLoop charLimit render st).items.length
            ∧ (applyCharLoop charLimit render st).has_more = some true
            ∧ (applyCharLoop charLimit render st).next_offset =
                some (st.offset.getD 0 + (applyCharLoop charLimit render st).items.length)
            ∧ (applyCharLoop charLimit render st).truncated = some true) := by
  intro n
  induction n with
  | zero =>
    intro st hlen
    have hcond : ¬ (charLimit < (render st).length ∧ 1 < st.items.length) := by
      intro h
      omega
    rw [applyCharLoop_unfold, if_neg hcond]
    exact ⟨fun h => h, fun h => absurd rfl h⟩
  | succ n ih =>
    intro st hlen
    rw [applyCharLoop_unfold]
    by_cases hc : charLimit < (render st).length ∧ 1 < st.items.length
    · rw [if_pos hc]
      have hitems : (truncateStep st).items.length = (st.items.length + 1) / 2 := by
        simp [truncateStep]
        omega
      have ih' := ih (truncateStep st) (by omega)
      constructor
      · intro _
        apply ih'.1
        intro hnil
        have := congrArg List.length hnil
        rw [hitems] at this
        simp at this
        omega
      · intro _
        by_cases heq : applyCharLoop charLimit render (truncateStep st) = truncateStep st
        · rw [heq]
          refine ⟨rfl, rfl, rfl, rfl⟩
        · have h2 := ih'.2 heq
          refine ⟨h2.1, h2.2.1, ?_, h2.2.2.2⟩
          rw [h2.2.2.1]
          simp [truncateStep]
    · rw [if_neg hc]
      exact ⟨fun h => h, fun h => absurd rfl h⟩

/-- C10: each truncation iteration strictly decreases the items list
length (so the loop terminates) and never empties it; `applyCharacterLimit`
runs that loop on an array-items output; and whenever truncation occurred,
`count` equals the number of remaining items, `has_more` is true, and
`next_offset` equals `offset` (defaulted to 0) plus the remaining item
count. -/
theorem c10_truncation_invariants {α : Type} (charLimit : Nat)
    (responseFormat : ResponseFormat) (mdr strf : LimState α → String) (st : LimState α) :
    (1 < st.items.length → (truncateStep st).items.length < st.items.length)
    ∧ applyCharacterLimit charLimit responseFormat mdr strf (.withItems st) =
        .withItems (applyCharLoop charLimit
          (fun s => formatOutput responseFormat (mdr s) (strf s)) st)
    ∧ (st.items ≠ [] →
        (applyCharLoop charLimit (fun s => formatOutput responseFormat (mdr s) (strf s))
          st).items ≠ [])
    ∧ (applyCharLoop charLimit (fun s => formatOutput responseFormat (mdr s) (strf s)) st
        ≠ st →
        (applyCharLoop charLimit (fun s => formatOutput responseFormat (mdr s) (strf s))
              st).count =
            some ((applyCharLoop charLimit
              (fun s => formatOutput responseFormat (mdr s) (strf s)) st).items.length)
          ∧ (applyCharLoop charLimit (fun s => formatOutput responseFormat (mdr s) (strf s))
              st).has_more = some true
          ∧ (applyCharLoop charLimit (fun s => formatOutput responseFormat (mdr s) (strf s))
              st).next_offset =
            some (st.offset.getD 0 + (applyCharLoop charLimit
              (fun s => formatOutput responseFormat (mdr s) (strf s)) st).items.length)) := by
  have h := applyCharLoop_invariants charLimit
    (fun s => formatOutput responseFormat (mdr s) (strf s)) st.items.length st (Nat.le_refl _)
  refine ⟨?_, rfl, h.1, fun hne => ⟨(h.2 hne).1, (h.2 hne).2.1, (h.2 hne).2.2.1⟩⟩
  intro h1
  simp [truncateStep]
  omega

/-- Witness for C10: four items rendering at 3 characters each against a
5-character limit; the loop truncates twice, leaving one item with
`count`, `has_more` and `next_offset` describing the remainder. -/
theorem c10_truncation_witness :
    (truncateStep (⟨[1, 2, 3, 4], some 4, some false, none, some 0, none, none⟩ :
        LimState Nat)).items.length < 4
    ∧ applyCharacterLimit 5 ResponseFormat.markdown
        (fun s => String.mk (List.replicate (3 * s.items.length) 'a')) (fun _ => "")
        (.withItems ⟨[1, 2, 3, 4], some 4, some false, none, some 0, none, none⟩) =
      .withItems (applyCharLoop 5
        (fun s => formatOutput ResponseFormat.markdown
          (String.mk (List.replicate (3 * s.items.length) 'a')) "")
        ⟨[1, 2, 3, 4], some 4, some false, none, some 0, none, none⟩)
    ∧ (applyCharLoop 5
        (fun s => formatOutput ResponseFormat.markdown
          (String.mk (List.replicate (3 * s.items.length) 'a')) "")
        ⟨[1, 2, 3, 4], some 4, some false, none, some 0, none, none⟩).items ≠ []
    ∧ (applyCharLoop 5
        (fun s => formatOutput ResponseFormat.markdown
          (String.mk (List.replicate (3 * s.items.length) 'a')) "")
        ⟨[1, 2, 3, 4], some 4, some false, none, some 0, none, none⟩).count =
      some ((applyCharLoop 5
        (fun s => formatOutput ResponseFormat.markdown
          (String.mk (List.replicate (3 * s.items.length) 'a')) "")
        ⟨[1, 2, 3, 4], some 4, some false, none, some 0, none, none⟩).items.length)
    ∧ (applyCharLoop 5
        (fun s => formatOutput ResponseFormat.markdown
          (String.mk (List.replicate (3 * s.items.length) 'a')) "")
        ⟨[1, 2, 3, 4], some 4, some false, none, some 0, none, none⟩).has_more = some true
    ∧ (applyCharLoop 5
        (fun s => formatOutput ResponseFormat.markdown
          (String.mk (List.replicate (3 * s.items.length) 'a')) "")
        ⟨[1, 2, 3, 4], some 4, some false, none, some 0, none, none⟩).next_offset =
      some (0 + (applyCharLoop 5
        (fun s => formatOutput ResponseFormat.markdown
          (String.mk (List.replicate (3 * s.items.length) 'a')) "")
        ⟨[1, 2, 3, 4], some 4, some false, none, some 0, none, none⟩).items.length) := by
  have hval : applyCharLoop 5
      (fun s => formatOutput ResponseFormat.markdown
        (String.mk (List.replicate (3 * s.items.length) 'a')) "")
      (⟨[1, 2, 3, 4], some 4, some false, none, some 0, none, none⟩ : LimState Nat) =
      ⟨[1], some 1, some true, some 1, some 0, some true,
        some "Response truncated to fit size limits. Use limit/offset or filters to page through results."⟩ := by
    rw [applyCharLoop_unfold, if_pos (by constructor <;> decide)]
    rw [show truncateStep
        (⟨[1, 2, 3, 4], some 4, some false, none, some 0, none, none⟩ : LimState Nat) =
      ⟨[1, 2], some 2, some true, some 2, some 0, some true,
        some "Response truncated to fit size limits. Use limit/offset or filters to page through results."⟩
      from by decide]
    rw [applyCharLoop_unfold, if_pos (by constructor <;> decide)]
    rw [show truncateStep
        (⟨[1, 2], some 2, some true, some 2, some 0, some true,
          some "Response truncated to fit size limits. Use limit/offset or filters to page through results."⟩ :
            LimState Nat) =
      ⟨[1], some 1, some true, some 1, some 0, some true,
        some "Response truncated to fit size limits. Use limit/offset or filters to page through results."⟩
      from by decide]
    rw [applyCharLoop_unfold, if_neg (by intro hcc; exact absurd hcc.1 (by decide))]
  have h := c10_truncation_invariants 5 ResponseFormat.markdown
    (fun s => String.mk (List.replicate (3 * s.items.length) 'a')) (fun _ => "")
    (⟨[1, 2, 3, 4], some 4, some false, none, some 0, none, none⟩ : LimState Nat)
  have hne : applyCharLoop 5
      (fun s => formatOutput ResponseFormat.markdown
        (String.mk (List.replicate (3 * s.items.length) 'a')) "")
      (⟨[1, 2, 3, 4], some 4, some false, none, some 0, none, none⟩ : LimState Nat) ≠
      (⟨[1, 2, 3, 4], some 4, some false, none, some 0, none, none⟩ : LimState Nat) := by
    rw [hval]
    decide
  have h4 := h.2.2.2 hne
  exact ⟨h.1 (by decide), h.2.1, h.2.2.1 (by decide), h4.1, h4.2.1, h4.2.2⟩

/-! ## Claim theorems: filter serialization round-trip -/

/-- Splitting at the first right bracket after a bracket-free prefix. -/
theorem takeWhile_append_rb : ∀ (l t : List Char), ']' ∉ l →
    (l ++ ']' :: t).takeWhile (fun c => c != ']') = l := by
  intro l
  induction l with
  | nil => intro t _; simp
  | cons c cs ih =>
    intro t hl
    have hc : (c != ']') = true := by
      simp only [bne_iff_ne, ne_eq]
      intro h
      exact hl (by simp [h])
    rw [List.cons_append, List.takeWhile_cons, hc]
    simp only [ite_true]
    rw [ih t (fun h => hl (List.mem_cons_of_mem c h))]

/-- The remainder after the first right bracket, for a bracket-free prefix. -/
theorem dropWhile_append_rb : ∀ (l t : List Char), ']' ∉ l →
    (l ++ ']' :: t).dropWhile (fun c => c != ']') = ']' :: t := by
  intro l
  induction l with
  | nil => intro t _; simp
  | cons c cs ih =>
    intro t hl
    have hc : (c != ']') = true := by
      simp only [bne_iff_ne, ne_eq]
      intro h
      exact hl (by simp [h])
    rw [List.cons_append, List.dropWhile_cons, hc]
    simp only [ite_true]
    exact ih t (fun h => hl (List.mem_cons_of_mem c h))

/-- A serialized scalar key decodes to the original field name. -/
theorem decodeKeyChars_plain (k : String) (hk : ']' ∉ k.data) :
    decodeKeyChars ("filter[" ++ k ++ "]").toList = ParamKey.plain k := by
  show decodeKeyChars ('f' :: 'i' :: 'l' :: 't' :: 'e' :: 'r' :: '[' :: (k.data ++ ']' :: [])) =
    ParamKey.plain k
  simp only [decodeKeyChars, takeWhile_append_rb k.data [] hk, dropWhile_append_rb k.data [] hk]
  simp

/-- A serialized array-element key decodes to the original field name. -/
theorem decodeKeyChars_arrElem (k : String) (hk : ']' ∉ k.data) :
    decodeKeyChars ("filter[" ++ k ++ "][]").toList = ParamKey.arrElem k := by
  show decodeKeyChars
      ('f' :: 'i' :: 'l' :: 't' :: 'e' :: 'r' :: '[' :: (k.data ++ ']' :: ['[', ']'])) =
    ParamKey.arrElem k
  simp only [decodeKeyChars, takeWhile_append_rb k.data ['[', ']'] hk,
    dropWhile_append_rb k.data ['[', ']'] hk]
  simp

/-- A serialized labels key decodes to the original label name. -/
theorem decodeKeyChars_label (k : String) (hk : ']' ∉ k.data) (hne : k.data ≠ []) :
    decodeKeyChars ("filter[labels][" ++ k ++ "]").toList = ParamKey.label k := by
  show decodeKeyChars
      ('f' :: 'i' :: 'l' :: 't' :: 'e' :: 'r' :: '[' ::
        (("labels".data : List Char) ++ ']' :: ('[' :: (k.data ++ ']' :: [])))) =
    ParamKey.label k
  have hlab : (']' : Char) ∉ "labels".data := by decide
  simp only [decodeKeyChars, takeWhile_append_rb "labels".data _ hlab,
    dropWhile_append_rb "labels".data _ hlab]
  have h1 : ¬ (']' :: '[' :: (k.data ++ [']']) = [']']) := by simp
  have h2 : ¬ (']' :: '[' :: (k.data ++ [']']) = [']', '[', ']']) := by
    intro h
    apply hne
    have := congrArg List.length h
    simp at this
    exact List.length_eq_zero.mp this
  rw [if_neg h1, if_neg h2, if_pos trivial]
  simp only [takeWhile_append_rb k.data [] hk, dropWhile_append_rb k.data [] hk]
  simp

/-- Decoding a run of array-element parameters extends the reconstructed
array field in order. -/
theorem foldl_insert_arr (ka : String) (hka : ']' ∉ ka.data) :
    ∀ (xs ys : List String),
      List.foldl (fun acc p => insertParam acc p.1 p.2) [(ka, FilterValue.arr ys)]
        (xs.map (fun x => ("filter[" ++ ka ++ "][]", x))) =
      [(ka, FilterValue.arr (ys ++ xs))] := by
  intro xs
  induction xs with
  | nil => intro ys; simp
  | cons x xs' ih =>
    intro ys
    simp only [List.map_cons, List.foldl_cons]
    have hins : insertParam [(ka, FilterValue.arr ys)] ("filter[" ++ ka ++ "][]") x =
        [(ka, FilterValue.arr (ys ++ [x]))] := by
      simp only [insertParam, decodeKeyChars_arrElem ka hka]
      simp [addArrElem]
    rw [hins, ih (ys ++ [x])]
    simp

/-- Recording a labels entry when no `labels` field exists yet appends a
fresh singleton labels field. -/
theorem addLabel_fresh (k v : String) :
    ∀ (acc : List (String × FilterValue)), (∀ p ∈ acc, p.1 ≠ "labels") →
    addLabel acc k v = acc ++ [("labels", FilterValue.labelsObj [(k, v)])] := by
  intro acc
  induction acc with
  | nil => intro _; rfl
  | cons p acc' ih =>
    intro hacc
    obtain ⟨k', fv⟩ := p
    have hp : k' ≠ "labels" := hacc (k', fv) (List.mem_cons_self _ _)
    simp only [addLabel, if_neg hp, List.cons_append]
    rw [ih (fun q hq => hacc q (List.mem_cons_of_mem _ hq))]

/-- Recording a labels entry when a `labels` field already terminates the
reconstruction extends that field. -/
theorem addLabel_append (m0 : List (String × String)) (k v : String) :
    ∀ (acc : List (String × FilterValue)), (∀ p ∈ acc, p.1 ≠ "labels") →
    addLabel (acc ++ [("labels", FilterValue.labelsObj m0)]) k v =
      acc ++ [("labels", FilterValue.labelsObj (m0 ++ [(k, v)]))] := by
  intro acc
  induction acc with
  | nil => intro _; simp [addLabel]
  | cons p acc' ih =>
    intro hacc
    obtain ⟨k', fv⟩ := p
    have hp : k' ≠ "labels" := hacc (k', fv) (List.mem_cons_self _ _)
    simp only [List.cons_append, addLabel, if_neg hp, List.append_eq]
    rw [ih (fun q hq => hacc q (List.mem_cons_of_mem _ hq))]

/-- Decoding a run of labels parameters extends the reconstructed labels
map in order. -/
theorem foldl_insert_labels (acc : List (String × FilterValue))
    (hacc : ∀ p ∈ acc, p.1 ≠ "labels") :
    ∀ (m m0 : List (String × String)), (∀ p ∈ m, ']' ∉ p.1.data ∧ p.1.data ≠ []) →
      List.foldl (fun acc2 p => insertParam acc2 p.1 p.2)
        (acc ++ [("labels", FilterValue.labelsObj m0)])
        (m.map (fun p => ("filter[labels][" ++ p.1 ++ "]", p.2))) =
      acc ++ [("labels", FilterValue.labelsObj (m0 ++ m))] := by
  intro m
  induction m with
  | nil => intro m0 _; simp
  | cons p m' ih =>
    intro m0 hm
    obtain ⟨k, v⟩ := p
    have hk := hm (k, v) (List.mem_cons_self _ _)
    simp only [List.map_cons, List.foldl_cons]
    have hins : insertParam (acc ++ [("labels", FilterValue.labelsObj m0)])
        ("filter[labels][" ++ k ++ "]") v =
        acc ++ [("labels", FilterValue.labelsObj (m0 ++ [(k, v)]))] := by
      simp only [insertParam, decodeKeyChars_label k hk.1 hk.2]
      exact addLabel_append m0 k v acc hacc
    rw [hins, ih (m0 ++ [(k, v)]) (fun q hq => hm q (List.mem_cons_of_mem _ hq))]
    simp

/-- C7: a filter with an array field, a null field, a labels map (with
well-formed, bracket-free keys) and an undefined field serializes to
exactly the bracket convention — `filter[key][]=element` per array
element, `filter[key]=null` for the null field, `filter[labels][k]=v` per
labels entry, and nothing for the undefined field — and the serialized
parameters reconstruct the same filter (minus the undefined field) under
that convention. -/
theorem c7_filter_roundtrip (ka kn ku : String) (xs : List String)
    (m : List (String × String))
    (hka_lab : ka ≠ "labels") (hkn_lab : kn ≠ "labels")
    (hka : ']' ∉ ka.data) (hkn : ']' ∉ kn.data)
    (hm : ∀ p ∈ m, ']' ∉ p.1.data ∧ p.1.data ≠ [])
    (hxs : xs ≠ []) (hmne : m ≠ []) :
    buildFilterParams [(ka, .arr xs), (kn, .null), ("labels", .labelsObj m), (ku, .undef)] =
      xs.map (fun x => ("filter[" ++ ka ++ "][]", x))
        ++ [("filter[" ++ kn ++ "]", "null")]
        ++ m.map (fun p => ("filter[labels][" ++ p.1 ++ "]", p.2))
    ∧ decodeFilterParams
        (buildFilterParams
          [(ka, .arr xs), (kn, .null), ("labels", .labelsObj m), (ku, .undef)]) =
      [(ka, .arr xs), (kn, .null), ("labels", .labelsObj m)] := by
  have henc : buildFilterParams
      [(ka, .arr xs), (kn, .null), ("labels", .labelsObj m), (ku, .undef)] =
      xs.map (fun x => ("filter[" ++ ka ++ "][]", x))
        ++ [("filter[" ++ kn ++ "]", "null")]
        ++ m.map (fun p => ("filter[labels][" ++ p.1 ++ "]", p.2)) := by
    simp [buildFilterParams, buildFilterEntry, hka_lab]
  refine ⟨henc, ?_⟩
  rw [henc]
  unfold decodeFilterParams
  rw [List.foldl_append, List.foldl_append]
  obtain ⟨x0, xs', rfl⟩ := List.exists_cons_of_ne_nil hxs
  obtain ⟨⟨k0, v0⟩, m', rfl⟩ := List.exists_cons_of_ne_nil hmne
  have hstageA : List.foldl (fun acc p => insertParam acc p.1 p.2) []
      ((x0 :: xs').map (fun x => ("filter[" ++ ka ++ "][]", x))) =
      [(ka, FilterValue.arr (x0 :: xs'))] := by
    simp only [List.map_cons, List.foldl_cons]
    have h0 : insertParam [] ("filter[" ++ ka ++ "][]") x0 = [(ka, FilterValue.arr [x0])] := by
      simp only [insertParam, decodeKeyChars_arrElem ka hka]
      rfl
    rw [h0, foldl_insert_arr ka hka xs' [x0]]
    simp
  rw [hstageA]
  have hstageB : List.foldl (fun acc p => insertParam acc p.1 p.2)
      [(ka, FilterValue.arr (x0 :: xs'))] [("filter[" ++ kn ++ "]", "null")] =
      [(ka, FilterValue.arr (x0 :: xs')), (kn, FilterValue.null)] := by
    simp only [List.foldl_cons, List.foldl_nil]
    simp only [insertParam, decodeKeyChars_plain kn hkn]
    simp
  rw [hstageB]
  have hacc : ∀ p ∈ [(ka, FilterValue.arr (x0 :: xs')), (kn, FilterValue.null)],
      p.1 ≠ "labels" := by
    intro p hp
    simp only [List.mem_cons, List.not_mem_nil, or_false] at hp
    rcases hp with rfl | rfl
    · exact hka_lab
    · exact hkn_lab
  have hk0 := hm (k0, v0) (List.mem_cons_self _ _)
  simp only [List.map_cons, List.foldl_cons]
  have hfirst : insertParam [(ka, FilterValue.arr (x0 :: xs')), (kn, FilterValue.null)]
      ("filter[labels][" ++ k0 ++ "]") v0 =
      [(ka, FilterValue.arr (x0 :: xs')), (kn, FilterValue.null)]
        ++ [("labels", FilterValue.labelsObj [(k0, v0)])] := by
    simp only [insertParam, decodeKeyChars_label k0 hk0.1 hk0.2]
    exact addLabel_fresh k0 v0 _ hacc
  rw [hfirst, foldl_insert_labels _ hacc m' [(k0, v0)]
    (fun q hq => hm q (List.mem_cons_of_mem _ hq))]
  simp

/-- Witness for C7: the filter with array field `type`, null field
`parentId`, labels map `env=prod` and undefined field `name`. -/
theorem c7_filter_roundtrip_witness :
    buildFilterParams [("type", FilterValue.arr ["app", "store"]),
        ("parentId", FilterValue.null), ("labels", FilterValue.labelsObj [("env", "prod")]),
        ("name", FilterValue.undef)] =
      [("filter[type][]", "app"), ("filter[type][]", "store"), ("filter[parentId]", "null"),
        ("filter[labels][env]", "prod")]
    ∧ decodeFilterParams
        (buildFilterParams [("type", FilterValue.arr ["app", "store"]),
          ("parentId", FilterValue.null), ("labels", FilterValue.labelsObj [("env", "prod")]),
          ("name", FilterValue.undef)]) =
      [("type", FilterValue.arr ["app", "store"]), ("parentId", FilterValue.null),
        ("labels", FilterValue.labelsObj [("env", "prod")])] := by
  have h := c7_filter_roundtrip "type" "parentId" "name" ["app", "store"] [("env", "prod")]
    (by decide) (by decide) (by decide) (by decide)
    (by
      intro p hp
      simp only [List.mem_cons, List.not_mem_nil, or_false] at hp
      subst hp
      exact ⟨by decide, by decide⟩)
    (by decide) (by decide)
  exact ⟨h.1, h.2⟩

end IcePanel
